import Mathlib

/-!
Shallow embedding of the dendrite sync request pool and federation join
routing (syncapi/sync/requestpool.go and the federation MakeJoin/SendJoin
handlers), with theorems settling the frozen claims about them.

External collaborators (storage queries, the key ring, the roomserver
producer) are modelled as oracle functions carried in environment records;
each handler is a pure function of its environment, its arguments and,
for the long-poll loop, a schedule of wake events standing for the three
`select` sources.
-/

namespace Dendrite

/-- An opaque client event payload; its internals are never inspected by the
code under verification, only moved around. -/
structure ClientEvent where
  raw : String
deriving DecidableEq

/-- The fields of a `gomatrixserverlib.Event` that SendJoin/MakeJoin read:
`RoomID()`, `EventID()`, `Origin()`, `OriginServerTS()`, the canonical JSON of
`Redact()` (kept as an opaque string), and `PrevEventIDs()`. -/
structure Event where
  roomID : String
  eventID : String
  origin : String
  originServerTS : Nat
  redactedJSON : String
  prevEventIDs : List String
deriving DecidableEq

/-- `gomatrixserverlib.SplitID(sigil, id)`: the id must start with the sigil
character; the rest is split at the first colon into (localpart, domain). -/
def splitOnFirstColon : List Char → Option (List Char × List Char)
  | [] => none
  | c :: cs =>
    if c = ':' then some ([], cs)
    else
      match splitOnFirstColon cs with
      | none => none
      | some (l, r) => some (c :: l, r)

/-- `gomatrixserverlib.SplitID('@', userID)` returning localpart and domain,
or an error when the id lacks the sigil or a colon. -/
def SplitID (sigil : Char) (id : String) : Except String (String × String) :=
  match id.toList with
  | [] => Except.error "invalid ID: missing sigil"
  | c :: rest =>
    if c = sigil then
      match splitOnFirstColon rest with
      | none => Except.error "invalid ID: missing colon"
      | some (l, d) => Except.ok (String.mk l, String.mk d)
    else Except.error "invalid ID: wrong sigil"

/-- Body tags distinguishing the JSON payloads of federation responses. -/
inductive FedBody where
  | notJSONBody
  | badJSONBody
  | forbidden
  | notFound
  | internalError
  | eventBody (ev : Event)
  | stateAndAuthChain (state authChain : List Event)
deriving DecidableEq

/-- A `util.JSONResponse`: HTTP status code plus a body tag. -/
structure FedResponse where
  code : Nat
  body : FedBody
deriving DecidableEq

/-- The outcome of `common.BuildEvent`: the room may not exist, the build may
fail, or it yields the built event together with the queried room state
(`QueryLatestEventsAndStateResponse.StateEvents`). -/
inductive BuildOutcome where
  | roomNoExists
  | otherError
  | built (ev : Event) (stateEvents : List Event)

/-- External collaborators of MakeJoin: `common.BuildEvent` (which queries the
roomserver for latest events and state) and `gomatrixserverlib.Allowed` (the
auth rule evaluator; `some reason` means rejected). -/
structure MakeJoinEnv where
  buildEvent : String → String → BuildOutcome
  allowed : Event → List Event → Option String

/-- The federation MakeJoin handler. Returns the response paired with a flag
recording whether `common.BuildEvent` was invoked, i.e. whether any room state
was queried / any event was built. -/
def MakeJoin (env : MakeJoinEnv) (roomID userID origin : String) :
    FedResponse × Bool :=
  match SplitID '@' userID with
  | Except.error _ => ({ code := 400, body := FedBody.badJSONBody }, false)
  | Except.ok (_, domain) =>
    if domain = origin then
      match env.buildEvent roomID userID with
      | BuildOutcome.roomNoExists =>
        ({ code := 404, body := FedBody.notFound }, true)
      | BuildOutcome.otherError =>
        ({ code := 500, body := FedBody.internalError }, true)
      | BuildOutcome.built ev stateEvents =>
        match env.allowed ev stateEvents with
        | some _ => ({ code := 403, body := FedBody.forbidden }, true)
        | none => ({ code := 200, body := FedBody.eventBody ev }, true)
    else ({ code := 403, body := FedBody.forbidden }, false)

/-- A `gomatrixserverlib.VerifyJSONRequest`: server name, message (the redacted
event JSON) and the timestamp at which the key must be valid. -/
structure VerifyJSONRequest where
  serverName : String
  message : String
  atTS : Nat
deriving DecidableEq

/-- External collaborators of SendJoin: the JSON decode of the request body,
`keys.VerifyJSONs` (outer error = key lookup failure, inner `some` = bad
signature), `query.QueryStateAndAuthChain`, and `producer.SendEvents`. -/
structure SendJoinEnv where
  parse : Option Event
  verify : VerifyJSONRequest → Except Unit (Option Unit)
  queryStateAndAuthChain : List String → String → Except Unit (List Event × List Event)
  sendEvents : List Event → Except Unit Unit

/-- The federation SendJoin handler. Returns the response paired with a flag
recording whether `producer.SendEvents` was invoked (the commit step). -/
def SendJoin (env : SendJoinEnv) (roomID eventID origin : String) :
    FedResponse × Bool :=
  match env.parse with
  | none => ({ code := 400, body := FedBody.notJSONBody }, false)
  | some event =>
    if event.roomID = roomID then
      if event.eventID = eventID then
        if event.origin = origin then
          match env.verify
              { serverName := event.origin, message := event.redactedJSON,
                atTS := event.originServerTS } with
          | Except.error _ =>
            ({ code := 500, body := FedBody.internalError }, false)
          | Except.ok (some _) =>
            ({ code := 403, body := FedBody.forbidden }, false)
          | Except.ok none =>
            match env.queryStateAndAuthChain event.prevEventIDs roomID with
            | Except.error _ =>
              ({ code := 500, body := FedBody.internalError }, false)
            | Except.ok (state, authChain) =>
              match env.sendEvents [event] with
              | Except.error _ =>
                ({ code := 500, body := FedBody.internalError }, true)
              | Except.ok _ =>
                ({ code := 200,
                   body := FedBody.stateAndAuthChain state authChain }, true)
        else ({ code := 403, body := FedBody.forbidden }, false)
      else ({ code := 400, body := FedBody.badJSONBody }, false)
    else ({ code := 400, body := FedBody.badJSONBody }, false)

/-- Association-list lookup with Go-map semantics (first binding wins; the
lists built by `alInsert` are duplicate-free). -/
def alLookup {α : Type} : List (String × α) → String → Option α
  | [], _ => none
  | (k, v) :: rest, key => if k = key then some v else alLookup rest key

/-- Association-list insert-or-overwrite, the Go `m[k] = v` map write. -/
def alInsert {α : Type} : List (String × α) → String → α → List (String × α)
  | [], key, v => [(key, v)]
  | (k, w) :: rest, key, v =>
    if k = key then (key, v) :: rest else (k, w) :: alInsert rest key v

/-- A `types.JoinedRoom`: timeline events, state delta events, and per-room
account data events. The Go zero value has all three empty. -/
structure JoinedRoom where
  timelineEvents : List ClientEvent
  stateEvents : List ClientEvent
  accountDataEvents : List ClientEvent
deriving DecidableEq

/-- The Go zero value of `types.JoinedRoom`. -/
def emptyJoinedRoom : JoinedRoom :=
  { timelineEvents := [], stateEvents := [], accountDataEvents := [] }

/-- Modelled from the spec: the `types.Response` sync response body (the
`syncapi/types` package is not under src/). It carries the next-batch
position token, the joined-rooms map, and the global account data events. -/
structure Response where
  nextBatch : Nat
  joined : List (String × JoinedRoom)
  accountDataEvents : List ClientEvent
deriving DecidableEq

/-- Modelled from the spec: `types.NewResponse(since)` builds an empty
response whose next-batch token is the given position. -/
def NewResponse (since : Nat) : Response :=
  { nextBatch := since, joined := [], accountDataEvents := [] }

/-- Modelled from the spec: `(*types.Response).IsEmpty` — a response is empty
iff it has no room deltas and no account data changes. -/
def Response.IsEmpty (r : Response) : Bool :=
  r.joined.isEmpty && r.accountDataEvents.isEmpty

/-- A parsed `/sync` request (`syncRequest`): user id, `since` position
(0 means initial sync), timeout and limit. -/
structure SyncRequest where
  userID : String
  since : Nat
  timeout : Nat
  limit : Nat
deriving DecidableEq

/-- External collaborators of the request pool: the notifier's current
position and the storage queries `CompleteSync`, `IncrementalSync`,
`accountDB.GetAccountData`, `db.GetAccountDataInRange` and
`accountDB.GetAccountDataByType`. -/
structure SyncEnv where
  notifierCurrentPos : Nat
  completeSync : String → Nat → Except Unit Response
  incrementalSync : String → Nat → Nat → Nat → Except Unit Response
  getAccountData :
    String → Except Unit (List ClientEvent × List (String × List ClientEvent))
  getAccountDataInRange : String → Nat → Nat → Except Unit (List (String × List String))
  getAccountDataByType : String → String → String → Except Unit (List ClientEvent)

/-- The initial-sync branch of `appendAccountData`: for each joined room in
the response whose per-room account data set is non-empty, attach it. -/
def mergeInitialRoomAccountData
    (data : Response) (rooms : List (String × List ClientEvent)) : Response :=
  { data with joined := data.joined.map (fun rj =>
      match alLookup rooms rj.1 with
      | none => rj
      | some evs =>
        if evs.isEmpty then rj
        else (rj.1, { rj.2 with accountDataEvents := evs })) }

/-- The inner loop of the incremental branch of `appendAccountData`: fetch
the current value of each changed account-data type and concatenate. -/
def fetchAccountDataByTypes (env : SyncEnv) (localpart roomID : String) :
    List String → Except Unit (List ClientEvent)
  | [] => Except.ok []
  | t :: ts =>
    match env.getAccountDataByType localpart roomID t with
    | Except.error e => Except.error e
    | Except.ok evs =>
      match fetchAccountDataByTypes env localpart roomID ts with
      | Except.error e => Except.error e
      | Except.ok rest => Except.ok (evs ++ rest)

/-- Attaching one room's freshly fetched account data to the response: for a
room id, overwrite (or create, from the zero value) the joined-room entry's
account data; for the global scope (empty room id), overwrite the global
account data events. -/
def applyRoomAccountData
    (data : Response) (roomID : String) (events : List ClientEvent) : Response :=
  if 0 < roomID.length then
    let jr := (alLookup data.joined roomID).getD emptyJoinedRoom
    { data with joined :=
        alInsert data.joined roomID { jr with accountDataEvents := events } }
  else { data with accountDataEvents := events }

/-- The outer loop of the incremental branch of `appendAccountData`,
processing the changed-type map entry by entry. -/
def applyAccountDataEntries (env : SyncEnv) (localpart : String) :
    Response → List (String × List String) → Except Unit Response
  | data, [] => Except.ok data
  | data, (roomID, types) :: rest =>
    match fetchAccountDataByTypes env localpart roomID types with
    | Except.error e => Except.error e
    | Except.ok events =>
      applyAccountDataEntries env localpart
        (applyRoomAccountData data roomID events) rest

/-- `(*RequestPool).appendAccountData`: initial sync attaches the whole
account data set; otherwise the types changed in `(since, currentPos]` are
fetched and each changed type's current value is attached. -/
def appendAccountData (env : SyncEnv) (data : Response) (userID : String)
    (req : SyncRequest) (currentPos : Nat) : Except Unit Response :=
  match SplitID '@' userID with
  | Except.error _ => Except.error ()
  | Except.ok (localpart, _) =>
    if req.since = 0 then
      match env.getAccountData localpart with
      | Except.error e => Except.error e
      | Except.ok (global, rooms) =>
        Except.ok (mergeInitialRoomAccountData
          { data with accountDataEvents := global } rooms)
    else
      match env.getAccountDataInRange userID req.since currentPos with
      | Except.error e => Except.error e
      | Except.ok dataTypes =>
        if dataTypes.isEmpty then Except.ok data
        else applyAccountDataEntries env localpart data dataTypes

/-- `(*RequestPool).currentSyncForUser`: CompleteSync when `since == 0`,
IncrementalSync otherwise, then the account data merge. -/
def currentSyncForUser (env : SyncEnv) (req : SyncRequest) (currentPos : Nat) :
    Except Unit Response :=
  match (if req.since = 0 then env.completeSync req.userID req.limit
         else env.incrementalSync req.userID req.since currentPos req.limit) with
  | Except.error e => Except.error e
  | Except.ok res => appendAccountData env res req.userID req currentPos

/-- One firing of the three-way `select` in the long-poll loop: the listener's
notify channel (carrying the listener's stream position at wake), the timer,
or the request's cancellation. -/
inductive WakeEvent where
  | notify (pos : Nat)
  | timerFired
  | cancelled
deriving DecidableEq

/-- How a sync request terminates: an HTTP response with a body, the
cancellation error path (`LogThenError` with the context error), or the
internal error path (`LogThenError` with a snapshot computation error). -/
inductive SyncOutcome where
  | respond (code : Nat) (body : Response)
  | cancelledError
  | internalError
deriving DecidableEq

/-- Resource actions of the long-poll path, in the order they happen:
`time.NewTimer`, `notifier.GetListener`, and the deferred
`userStreamListener.Close()` and `timer.Stop()`. -/
inductive ResourceAction where
  | startTimer
  | acquireListener
  | releaseListener
  | stopTimer
deriving DecidableEq

/-- The `for { select { ... } }` loop of `OnIncomingSyncRequest`, driven by a
schedule of wake events; `none` means the schedule ran out while the request
was still waiting. A notify wake always computes the snapshot at the woken
position before the next select; an empty snapshot loops back. -/
def syncLoop (env : SyncEnv) (req : SyncRequest) :
    List WakeEvent → Option SyncOutcome
  | [] => none
  | WakeEvent.timerFired :: _ =>
    some (SyncOutcome.respond 200 (NewResponse req.since))
  | WakeEvent.cancelled :: _ => some SyncOutcome.cancelledError
  | WakeEvent.notify p :: rest =>
    match currentSyncForUser env req p with
    | Except.error _ => some SyncOutcome.internalError
    | Except.ok r =>
      if r.IsEmpty then syncLoop env req rest
      else some (SyncOutcome.respond 200 r)

/-- `(*RequestPool).OnIncomingSyncRequest`: the immediate path when
`since == 0 || timeout == 0`, else the long-poll loop. The second component
is the trace of timer/listener resource actions; per Go `defer` semantics the
listener release and timer stop run on every exit of the long-poll path. -/
def OnIncomingSyncRequest (env : SyncEnv) (req : SyncRequest)
    (sched : List WakeEvent) : Option SyncOutcome × List ResourceAction :=
  if req.since = 0 ∨ req.timeout = 0 then
    match currentSyncForUser env req env.notifierCurrentPos with
    | Except.error _ => (some SyncOutcome.internalError, [])
    | Except.ok r => (some (SyncOutcome.respond 200 r), [])
  else
    match syncLoop env req sched with
    | none => (none, [ResourceAction.startTimer, ResourceAction.acquireListener])
    | some o =>
      (some o,
       [ResourceAction.startTimer, ResourceAction.acquireListener,
        ResourceAction.releaseListener, ResourceAction.stopTimer])

/-- Modelled from the spec: a Listener registered with the StreamNotifier
(the `Notifier` implementation is not under src/, only its caller). It owns
the position it is waiting past (`sinceKnown`) and whether its single-shot
wake channel has yielded. -/
structure Waiter where
  id : Nat
  sinceKnown : Nat
  woken : Bool
deriving DecidableEq

/-- Modelled from the spec: the StreamNotifier's shared state — the global
stream position high-water mark and the registered listeners. -/
structure NotifierState where
  pos : Nat
  waiters : List Waiter
deriving DecidableEq

/-- Modelled from the spec: the atomic operations on the StreamNotifier.
`wait id sinceKnown` registers a listener and, in the same atomic step,
checks the current position (waking immediately if already past);
`advance p` moves the high-water mark forward and broadcasts. -/
inductive NotifierOp where
  | wait (id sinceKnown : Nat)
  | advance (p : Nat)
deriving DecidableEq

/-- Modelled from the spec: one atomic step of the StreamNotifier. The
registration of a waiter and the already-past check happen in the same step;
an advance wakes every waiter whose known position is behind the new mark. -/
def notifierStep (s : NotifierState) : NotifierOp → NotifierState
  | NotifierOp.wait id sinceKnown =>
    { s with waiters :=
        { id := id, sinceKnown := sinceKnown,
          woken := decide (sinceKnown < s.pos) } :: s.waiters }
  | NotifierOp.advance p =>
    let newPos := max s.pos p
    { pos := newPos,
      waiters := s.waiters.map (fun w =>
        if w.sinceKnown < newPos then { w with woken := true } else w) }

/-- Modelled from the spec: running a whole interleaving of subscriptions and
position advances from the initial state (position 0, no listeners). -/
def notifierRun (ops : List NotifierOp) : NotifierState :=
  ops.foldl notifierStep { pos := 0, waiters := [] }

/-- The no-missed-wakeup invariant: every registered listener whose known
position is behind the current high-water mark has been woken. -/
def notifierInv (s : NotifierState) : Prop :=
  ∀ w ∈ s.waiters, w.sinceKnown < s.pos → w.woken = true

/-- Decidable equality for `Except`, needed to evaluate oracle outcomes in
the concrete witnesses. -/
instance {ε α : Type} [DecidableEq ε] [DecidableEq α] :
    DecidableEq (Except ε α) := fun a b =>
  match a, b with
  | Except.error e1, Except.error e2 =>
    match decEq e1 e2 with
    | isTrue h => isTrue (by rw [h])
    | isFalse h => isFalse (fun hh => h (Except.error.inj hh))
  | Except.error _, Except.ok _ => isFalse (fun hh => Except.noConfusion hh)
  | Except.ok _, Except.error _ => isFalse (fun hh => Except.noConfusion hh)
  | Except.ok a1, Except.ok a2 =>
    match decEq a1 a2 with
    | isTrue h => isTrue (by rw [h])
    | isFalse h => isFalse (fun hh => h (Except.ok.inj hh))

/-! Concrete fixtures used by the witness theorems. -/

/-- A concrete signed join event fixture. -/
def evJoin : Event :=
  { roomID := "!r:hs1", eventID := "$e1", origin := "hs2",
    originServerTS := 1000, redactedJSON := "redactedJoinEvent",
    prevEventIDs := ["$p0"] }

/-- A SendJoin environment whose key ring reports a bad signature. -/
def sendJoinEnvBadSig : SendJoinEnv :=
  { parse := some evJoin,
    verify := fun _ => Except.ok (some ()),
    queryStateAndAuthChain := fun _ _ => Except.ok ([], []),
    sendEvents := fun _ => Except.ok () }

/-- A SendJoin environment where every collaborator succeeds. -/
def sendJoinEnvOk : SendJoinEnv :=
  { parse := some evJoin,
    verify := fun _ => Except.ok none,
    queryStateAndAuthChain := fun _ _ => Except.ok ([], []),
    sendEvents := fun _ => Except.ok () }

/-- A MakeJoin environment where the build succeeds and the auth evaluator
allows the join. -/
def makeJoinEnvOk : MakeJoinEnv :=
  { buildEvent := fun _ _ => BuildOutcome.built evJoin [],
    allowed := fun _ _ => none }

/-- A sync environment fixture with an empty incremental delta for one call
shape and a non-empty one for another is not needed; this one returns a
non-empty incremental snapshot and no changed account data. -/
def syncEnvA : SyncEnv :=
  { notifierCurrentPos := 7,
    completeSync := fun _ _ =>
      Except.ok { nextBatch := 7, joined := [], accountDataEvents := [] },
    incrementalSync := fun _ _ _ _ =>
      Except.ok { nextBatch := 7, joined := [],
                  accountDataEvents := [{ raw := "newMsg" }] },
    getAccountData := fun _ => Except.ok ([], []),
    getAccountDataInRange := fun _ _ _ => Except.ok [],
    getAccountDataByType := fun _ _ _ => Except.ok [] }

/-- A sync environment fixture with one changed account-data type in one
room. -/
def syncEnvB : SyncEnv :=
  { notifierCurrentPos := 9,
    completeSync := fun _ _ => Except.ok (NewResponse 9),
    incrementalSync := fun _ _ _ _ => Except.ok (NewResponse 9),
    getAccountData := fun _ => Except.ok ([], []),
    getAccountDataInRange := fun _ _ _ => Except.ok [("!r:hs1", ["m.tag"])],
    getAccountDataByType := fun _ _ _ => Except.ok [{ raw := "tagdata" }] }

/-- A concrete initial-sync request. -/
def reqInitial : SyncRequest :=
  { userID := "@alice:hs1", since := 0, timeout := 0, limit := 10 }

/-- A concrete long-poll request. -/
def reqPoll : SyncRequest :=
  { userID := "@alice:hs1", since := 100, timeout := 30, limit := 10 }

/-! Helper lemmas. -/

theorem stringLengthPos (s : String) (h : s ≠ "") : 0 < s.length := by
  rcases s with ⟨cs⟩
  cases cs with
  | nil => exact absurd rfl h
  | cons c cs => simp [String.length]

theorem alLookup_alInsert_self {α : Type} (l : List (String × α)) (k : String)
    (v : α) : alLookup (alInsert l k v) k = some v := by
  induction l with
  | nil => simp [alInsert, alLookup]
  | cons kv rest ih =>
    obtain ⟨k0, v0⟩ := kv
    by_cases h : k0 = k
    · subst h; simp [alInsert, alLookup]
    · simp [alInsert, alLookup, h, ih]

theorem alLookup_alInsert_ne {α : Type} (l : List (String × α)) (k k2 : String)
    (v : α) (h : k ≠ k2) : alLookup (alInsert l k v) k2 = alLookup l k2 := by
  induction l with
  | nil => simp [alInsert, alLookup, h]
  | cons kv rest ih =>
    obtain ⟨k0, v0⟩ := kv
    by_cases h0 : k0 = k
    · subst h0; simp [alInsert, alLookup, h]
    · by_cases h2 : k0 = k2
      · subst h2; simp [alInsert, alLookup, h0]
      · simp [alInsert, alLookup, h0, h2, ih]

theorem notifierStep_inv (s : NotifierState) (op : NotifierOp)
    (h : notifierInv s) : notifierInv (notifierStep s op) := by
  cases op with
  | wait id sinceKnown =>
    intro w hw hlt
    simp only [notifierStep, List.mem_cons] at hw
    rcases hw with hww | hww
    · subst hww
      simp only [notifierStep] at hlt
      exact decide_eq_true hlt
    · exact h w hww hlt
  | advance p =>
    intro w hw hlt
    simp only [notifierStep, List.mem_map] at hw
    obtain ⟨w0, _, hmap⟩ := hw
    by_cases hc : w0.sinceKnown < max s.pos p
    · rw [if_pos hc] at hmap; subst hmap; rfl
    · rw [if_neg hc] at hmap; subst hmap
      exact absurd hlt hc

theorem notifier_foldl_inv (ops : List NotifierOp) :
    ∀ s : NotifierState, notifierInv s →
      notifierInv (List.foldl notifierStep s ops) := by
  induction ops with
  | nil => intro s h; exact h
  | cons op rest ih =>
    intro s h
    exact ih (notifierStep s op) (notifierStep_inv s op h)

/-- Claim C2: for every interleaving of listener registration and position
advances (including an advance happening before a subscription), a listener
whose known position is behind the global position has been woken — no
wakeup is ever missed. -/
theorem notifier_no_missed_wakeup (ops : List NotifierOp) (w : Waiter)
    (hw : w ∈ (notifierRun ops).waiters)
    (hlt : w.sinceKnown < (notifierRun ops).pos) : w.woken = true := by
  refine notifier_foldl_inv ops { pos := 0, waiters := [] } ?_ w hw hlt
  intro w0 hw0 _
  exact absurd hw0 (List.not_mem_nil w0)

/-- Witness for C2: a listener registered at known position 5, then an
advance to 10, ends up woken. -/
theorem notifier_no_missed_wakeup_witness :
    ({ id := 1, sinceKnown := 5, woken := true } : Waiter) ∈
      (notifierRun [NotifierOp.wait 1 5, NotifierOp.advance 10]).waiters ∧
    (({ id := 1, sinceKnown := 5, woken := true } : Waiter)).sinceKnown <
      (notifierRun [NotifierOp.wait 1 5, NotifierOp.advance 10]).pos ∧
    (({ id := 1, sinceKnown := 5, woken := true } : Waiter)).woken = true :=
  ⟨by decide, by decide,
   notifier_no_missed_wakeup [NotifierOp.wait 1 5, NotifierOp.advance 10]
     { id := 1, sinceKnown := 5, woken := true } (by decide) (by decide)⟩

/-- Claim C1: SendJoin commits (invokes the producer) only if the signature
verification of the event's redacted form against the declared origin's key
at the event's declared timestamp succeeded; on any verification failure
(key-lookup error or bad signature) SendJoin returns a non-200 error and the
event is never published. -/
theorem sendJoin_commit_requires_signature (env : SendJoinEnv)
    (roomID eventID origin : String) :
    ((SendJoin env roomID eventID origin).2 = true →
      ∃ ev, env.parse = some ev ∧
        env.verify { serverName := ev.origin, message := ev.redactedJSON,
                     atTS := ev.originServerTS } = Except.ok none) ∧
    (∀ ev, env.parse = some ev →
      env.verify { serverName := ev.origin, message := ev.redactedJSON,
                   atTS := ev.originServerTS } ≠ Except.ok none →
      (SendJoin env roomID eventID origin).2 = false ∧
      (SendJoin env roomID eventID origin).1.code ≠ 200) := by
  constructor
  · intro hc
    cases hp : env.parse with
    | none => simp [SendJoin, hp] at hc
    | some ev =>
      refine ⟨ev, rfl, ?_⟩
      by_cases h1 : ev.roomID = roomID
      · by_cases h2 : ev.eventID = eventID
        · by_cases h3 : ev.origin = origin
          · rw [h3]
            cases hv : env.verify ⟨origin, ev.redactedJSON, ev.originServerTS⟩ with
            | error e => simp [SendJoin, hp, h1, h2, h3, hv] at hc
            | ok o =>
              cases o with
              | none => exact rfl
              | some u => simp [SendJoin, hp, h1, h2, h3, hv] at hc
          · simp [SendJoin, hp, h1, h2, h3] at hc
        · simp [SendJoin, hp, h1, h2] at hc
      · simp [SendJoin, hp, h1] at hc
  · intro ev hp hv
    by_cases h1 : ev.roomID = roomID
    · by_cases h2 : ev.eventID = eventID
      · by_cases h3 : ev.origin = origin
        · rw [h3] at hv
          cases hverify : env.verify ⟨origin, ev.redactedJSON, ev.originServerTS⟩ with
          | error e =>
            have hres : SendJoin env roomID eventID origin =
                ({ code := 500, body := FedBody.internalError }, false) := by
              simp [SendJoin, hp, h1, h2, h3, hverify]
            rw [hres]
            exact ⟨rfl, by decide⟩
          | ok o =>
            cases o with
            | none => exact absurd hverify hv
            | some u =>
              have hres : SendJoin env roomID eventID origin =
                  ({ code := 403, body := FedBody.forbidden }, false) := by
                simp [SendJoin, hp, h1, h2, h3, hverify]
              rw [hres]
              exact ⟨rfl, by decide⟩
        · have hres : SendJoin env roomID eventID origin =
              ({ code := 403, body := FedBody.forbidden }, false) := by
            simp [SendJoin, hp, h1, h2, h3]
          rw [hres]
          exact ⟨rfl, by decide⟩
      · have hres : SendJoin env roomID eventID origin =
            ({ code := 400, body := FedBody.badJSONBody }, false) := by
          simp [SendJoin, hp, h1, h2]
        rw [hres]
        exact ⟨rfl, by decide⟩
    · have hres : SendJoin env roomID eventID origin =
          ({ code := 400, body := FedBody.badJSONBody }, false) := by
        simp [SendJoin, hp, h1]
      rw [hres]
      exact ⟨rfl, by decide⟩

/-- Witness for C1: with a key ring reporting a bad signature, SendJoin for
the matching room/event/origin does not commit and does not return 200. -/
theorem sendJoin_commit_requires_signature_witness :
    sendJoinEnvBadSig.parse = some evJoin ∧
    sendJoinEnvBadSig.verify
      { serverName := evJoin.origin, message := evJoin.redactedJSON,
        atTS := evJoin.originServerTS } ≠ Except.ok none ∧
    (SendJoin sendJoinEnvBadSig "!r:hs1" "$e1" "hs2").2 = false :=
  ⟨rfl, by decide,
   ((sendJoin_commit_requires_signature sendJoinEnvBadSig "!r:hs1" "$e1"
       "hs2").2 evJoin rfl (by decide)).1⟩

/-- Claim C3: when the body parses but its room id or event id differs from
the path values, SendJoin returns 400 and never invokes the producer,
regardless of the origin and of the signature verification outcome (the
consistency checks come first). -/
theorem sendJoin_mismatch_rejected (env : SendJoinEnv)
    (roomID eventID origin : String) (ev : Event)
    (hp : env.parse = some ev)
    (hmm : ev.roomID ≠ roomID ∨ ev.eventID ≠ eventID) :
    (SendJoin env roomID eventID origin).1.code = 400 ∧
    (SendJoin env roomID eventID origin).2 = false := by
  have hres : SendJoin env roomID eventID origin =
      ({ code := 400, body := FedBody.badJSONBody }, false) := by
    rcases hmm with h | h
    · simp [SendJoin, hp, h]
    · by_cases h1 : ev.roomID = roomID
      · simp [SendJoin, hp, h1, h]
      · simp [SendJoin, hp, h1]
  rw [hres]
  exact ⟨rfl, rfl⟩

/-- Witness for C3: a body whose room id is for a different room than the
path yields 400 with no commit, even though the signature would verify. -/
theorem sendJoin_mismatch_rejected_witness :
    sendJoinEnvOk.parse = some evJoin ∧
    evJoin.roomID ≠ "!other:hs1" ∧
    (SendJoin sendJoinEnvOk "!other:hs1" "$e1" "hs2").1.code = 400 ∧
    (SendJoin sendJoinEnvOk "!other:hs1" "$e1" "hs2").2 = false :=
  ⟨rfl, by decide,
   sendJoin_mismatch_rejected sendJoinEnvOk "!other:hs1" "$e1" "hs2" evJoin
     rfl (Or.inl (by decide))⟩

/-- Claim C7: when the domain parsed from the target user id differs from the
requesting peer's origin, MakeJoin returns 403 Forbidden with the build
oracle never consulted — the rejection precedes any state query or event
construction, whatever the environment. -/
theorem makeJoin_authority_check (env : MakeJoinEnv)
    (roomID userID origin l d : String)
    (hsplit : SplitID '@' userID = Except.ok (l, d)) (hne : d ≠ origin) :
    MakeJoin env roomID userID origin =
      ({ code := 403, body := FedBody.forbidden }, false) := by
  simp [MakeJoin, hsplit, hne]

/-- Witness for C7: a join proposal for a user of hs2 sent by hs1 is
rejected 403 without building an event. -/
theorem makeJoin_authority_check_witness :
    SplitID '@' "@bob:hs2" = Except.ok ("bob", "hs2") ∧
    ("hs2" : String) ≠ "hs1" ∧
    MakeJoin makeJoinEnvOk "!r:hs1" "@bob:hs2" "hs1" =
      ({ code := 403, body := FedBody.forbidden }, false) :=
  ⟨by decide, by decide,
   makeJoin_authority_check makeJoinEnvOk "!r:hs1" "@bob:hs2" "hs1" "bob"
     "hs2" (by decide) (by decide)⟩

/-- Claim C4: when `since == 0` or `timeout == 0` the request pool skips
waiting entirely — no timer is started and no listener is subscribed (the
resource trace is empty), the result does not depend on any wake schedule,
and a successful snapshot at the arrival-time position is returned with
status 200; the snapshot is CompleteSync-based when `since == 0` and
IncrementalSync-based otherwise, merged with account data. -/
theorem sync_immediate (env : SyncEnv) (req : SyncRequest)
    (sched : List WakeEvent) (h : req.since = 0 ∨ req.timeout = 0) :
    (OnIncomingSyncRequest env req sched).2 = [] ∧
    (∀ sched2, OnIncomingSyncRequest env req sched2 =
       OnIncomingSyncRequest env req sched) ∧
    (∀ r, currentSyncForUser env req env.notifierCurrentPos = Except.ok r →
       (OnIncomingSyncRequest env req sched).1 =
         some (SyncOutcome.respond 200 r)) ∧
    (∀ base, req.since = 0 → env.completeSync req.userID req.limit = Except.ok base →
       currentSyncForUser env req env.notifierCurrentPos =
         appendAccountData env base req.userID req env.notifierCurrentPos) ∧
    (∀ base, req.since ≠ 0 →
       env.incrementalSync req.userID req.since env.notifierCurrentPos req.limit =
         Except.ok base →
       currentSyncForUser env req env.notifierCurrentPos =
         appendAccountData env base req.userID req env.notifierCurrentPos) := by
  refine ⟨?_, ?_, ?_, ?_, ?_⟩
  · unfold OnIncomingSyncRequest
    rw [if_pos h]
    cases hc : currentSyncForUser env req env.notifierCurrentPos <;> simp
  · intro sched2
    unfold OnIncomingSyncRequest
    rw [if_pos h, if_pos h]
  · intro r hr
    unfold OnIncomingSyncRequest
    rw [if_pos h, hr]
  · intro base hz hbase
    simp [currentSyncForUser, hz, hbase]
  · intro base hz hbase
    simp [currentSyncForUser, hz, hbase]

/-- Witness for C4: an initial sync with zero timeout returns immediately
with an empty resource trace. -/
theorem sync_immediate_witness :
    (reqInitial.since = 0 ∨ reqInitial.timeout = 0) ∧
    (OnIncomingSyncRequest syncEnvA reqInitial []).2 = [] :=
  ⟨Or.inl rfl, (sync_immediate syncEnvA reqInitial [] (Or.inl rfl)).1⟩

theorem syncLoop_skips_empty_wakes (env : SyncEnv) (req : SyncRequest)
    (evs tail : List WakeEvent)
    (hevs : ∀ e ∈ evs, ∃ p r, e = WakeEvent.notify p ∧
       currentSyncForUser env req p = Except.ok r ∧ r.IsEmpty = true) :
    syncLoop env req (evs ++ tail) = syncLoop env req tail := by
  induction evs with
  | nil => rfl
  | cons e rest ih =>
    obtain ⟨p, r, he, hc, hemp⟩ := hevs e (List.mem_cons_self e rest)
    subst he
    simp only [List.cons_append, syncLoop, hc, hemp, if_true]
    exact ih (fun e2 h2 => hevs e2 (List.mem_cons_of_mem _ h2))

/-- Claim C5: in a long poll where the timer fires before any wake produced a
non-empty snapshot, the request terminates 200 with a structurally empty
response carrying the original since token unchanged. -/
theorem sync_timeout_empty_response (env : SyncEnv) (req : SyncRequest)
    (evs rest : List WakeEvent)
    (hs : req.since ≠ 0) (ht : req.timeout ≠ 0)
    (hevs : ∀ e ∈ evs, ∃ p r, e = WakeEvent.notify p ∧
       currentSyncForUser env req p = Except.ok r ∧ r.IsEmpty = true) :
    (OnIncomingSyncRequest env req (evs ++ WakeEvent.timerFired :: rest)).1 =
      some (SyncOutcome.respond 200 (NewResponse req.since)) ∧
    (NewResponse req.since).IsEmpty = true ∧
    (NewResponse req.since).nextBatch = req.since := by
  refine ⟨?_, rfl, rfl⟩
  unfold OnIncomingSyncRequest
  rw [if_neg (by simp [hs, ht])]
  rw [syncLoop_skips_empty_wakes env req evs (WakeEvent.timerFired :: rest) hevs]
  rfl

/-- Witness for C5: `since = 100`, a 30s timeout firing with no data gives
200 with the empty response echoing since 100. -/
theorem sync_timeout_empty_response_witness :
    reqPoll.since ≠ 0 ∧ reqPoll.timeout ≠ 0 ∧
    (OnIncomingSyncRequest syncEnvA reqPoll [WakeEvent.timerFired]).1 =
      some (SyncOutcome.respond 200 (NewResponse 100)) :=
  ⟨by decide, by decide,
   (sync_timeout_empty_response syncEnvA reqPoll [] [] (by decide) (by decide)
     (fun e he => absurd he (List.not_mem_nil e))).1⟩

/-- Claim C6: once a wake fires, the snapshot computation always completes
and is acted on regardless of what the schedule holds next (in particular a
pending timer firing): a non-empty snapshot terminates the long poll with
200, an empty one loops back on the same timer, and a computation error
terminates with the error path. -/
theorem sync_wake_completes (env : SyncEnv) (req : SyncRequest) (p : Nat)
    (rest : List WakeEvent) :
    (∀ r, currentSyncForUser env req p = Except.ok r → r.IsEmpty = false →
       syncLoop env req (WakeEvent.notify p :: rest) =
         some (SyncOutcome.respond 200 r)) ∧
    (∀ r, currentSyncForUser env req p = Except.ok r → r.IsEmpty = true →
       syncLoop env req (WakeEvent.notify p :: rest) = syncLoop env req rest) ∧
    (∀ e, currentSyncForUser env req p = Except.error e →
       syncLoop env req (WakeEvent.notify p :: rest) =
         some SyncOutcome.internalError) ∧
    (∀ r, req.since ≠ 0 → req.timeout ≠ 0 →
       currentSyncForUser env req p = Except.ok r → r.IsEmpty = false →
       (OnIncomingSyncRequest env req (WakeEvent.notify p :: rest)).1 =
         some (SyncOutcome.respond 200 r)) := by
  refine ⟨?_, ?_, ?_, ?_⟩
  · intro r hc hemp
    simp [syncLoop, hc, hemp]
  · intro r hc hemp
    simp [syncLoop, hc, hemp]
  · intro e hc
    simp [syncLoop, hc]
  · intro r hs ht hc hemp
    unfold OnIncomingSyncRequest
    rw [if_neg (by simp [hs, ht])]
    simp [syncLoop, hc, hemp]

/-- Witness for C6: a wake at position 8 whose snapshot is non-empty makes
the loop return it even with the timer next in the schedule. -/
theorem sync_wake_completes_witness :
    currentSyncForUser syncEnvA reqPoll 8 =
      Except.ok { nextBatch := 7, joined := [],
                  accountDataEvents := [{ raw := "newMsg" }] } ∧
    syncLoop syncEnvA reqPoll [WakeEvent.notify 8, WakeEvent.timerFired] =
      some (SyncOutcome.respond 200
        { nextBatch := 7, joined := [],
          accountDataEvents := [{ raw := "newMsg" }] }) :=
  ⟨by decide,
   (sync_wake_completes syncEnvA reqPoll 8 [WakeEvent.timerFired]).1
     { nextBatch := 7, joined := [], accountDataEvents := [{ raw := "newMsg" }] }
     (by decide) (by decide)⟩

/-- Claim C8: on the long-poll path the resource trace of every terminating
execution acquires the listener exactly once and releases it exactly once
(with the timer started and stopped around it), for every exit — timeout,
wake-with-data, cancellation, or snapshot error; while still waiting, the
listener is held and not yet released. -/
theorem sync_listener_released (env : SyncEnv) (req : SyncRequest)
    (sched : List WakeEvent) (o : SyncOutcome)
    (hs : req.since ≠ 0) (ht : req.timeout ≠ 0)
    (hterm : (OnIncomingSyncRequest env req sched).1 = some o) :
    (OnIncomingSyncRequest env req sched).2 =
      [ResourceAction.startTimer, ResourceAction.acquireListener,
       ResourceAction.releaseListener, ResourceAction.stopTimer] ∧
    (OnIncomingSyncRequest env req sched).2.count ResourceAction.acquireListener = 1 ∧
    (OnIncomingSyncRequest env req sched).2.count ResourceAction.releaseListener = 1 := by
  have htrace : (OnIncomingSyncRequest env req sched).2 =
      [ResourceAction.startTimer, ResourceAction.acquireListener,
       ResourceAction.releaseListener, ResourceAction.stopTimer] := by
    unfold OnIncomingSyncRequest at hterm ⊢
    rw [if_neg (by simp [hs, ht])] at hterm ⊢
    cases hloop : syncLoop env req sched with
    | none => rw [hloop] at hterm; exact absurd hterm (by simp)
    | some o2 => rfl
  refine ⟨htrace, ?_, ?_⟩ <;> rw [htrace] <;> decide

/-- Witness for C8: a cancelled long poll exits with the listener released
exactly once. -/
theorem sync_listener_released_witness :
    reqPoll.since ≠ 0 ∧ reqPoll.timeout ≠ 0 ∧
    (OnIncomingSyncRequest syncEnvA reqPoll [WakeEvent.cancelled]).1 =
      some SyncOutcome.cancelledError ∧
    (OnIncomingSyncRequest syncEnvA reqPoll [WakeEvent.cancelled]).2 =
      [ResourceAction.startTimer, ResourceAction.acquireListener,
       ResourceAction.releaseListener, ResourceAction.stopTimer] :=
  ⟨by decide, by decide, by decide,
   (sync_listener_released syncEnvA reqPoll [WakeEvent.cancelled]
     SyncOutcome.cancelledError (by decide) (by decide) (by decide)).1⟩

theorem applyRoomAccountData_lookup_self (data : Response) (roomID : String)
    (events : List ClientEvent) (h : roomID ≠ "") :
    alLookup (applyRoomAccountData data roomID events).joined roomID =
      some { (alLookup data.joined roomID).getD emptyJoinedRoom with
             accountDataEvents := events } := by
  unfold applyRoomAccountData
  rw [if_pos (stringLengthPos roomID h)]
  exact alLookup_alInsert_self _ _ _

theorem applyRoomAccountData_lookup_ne (data : Response) (roomID : String)
    (events : List ClientEvent) (rid : String) (hne : roomID ≠ rid) :
    alLookup (applyRoomAccountData data roomID events).joined rid =
      alLookup data.joined rid := by
  unfold applyRoomAccountData
  by_cases h : 0 < roomID.length
  · rw [if_pos h]
    exact alLookup_alInsert_ne _ _ _ _ hne
  · rw [if_neg h]

theorem applyRoomAccountData_global_self (data : Response)
    (events : List ClientEvent) :
    (applyRoomAccountData data "" events).accountDataEvents = events := by
  unfold applyRoomAccountData
  rw [if_neg (by decide)]

theorem applyRoomAccountData_global_preserved (data : Response)
    (roomID : String) (events : List ClientEvent) (h : roomID ≠ "") :
    (applyRoomAccountData data roomID events).accountDataEvents =
      data.accountDataEvents := by
  unfold applyRoomAccountData
  rw [if_pos (stringLengthPos roomID h)]

theorem applyAccountDataEntries_preserve (env : SyncEnv) (localpart : String)
    (entries : List (String × List String)) :
    ∀ (data : Response) (rid : String),
    (∀ e ∈ entries, ∃ evs,
       fetchAccountDataByTypes env localpart e.1 e.2 = Except.ok evs) →
    rid ∉ entries.map Prod.fst →
    ∃ data2, applyAccountDataEntries env localpart data entries = Except.ok data2 ∧
      alLookup data2.joined rid = alLookup data.joined rid ∧
      (rid = "" → data2.accountDataEvents = data.accountDataEvents) := by
  induction entries with
  | nil =>
    intro data rid _ _
    exact ⟨data, rfl, rfl, fun _ => rfl⟩
  | cons kv rest ih =>
    intro data rid hall hrid
    obtain ⟨k, tys⟩ := kv
    obtain ⟨evs, hfetch⟩ := hall (k, tys) (List.mem_cons_self _ _)
    have hrk : rid ≠ k := by
      intro hh
      exact hrid (by rw [hh]; exact List.mem_cons_self _ _)
    have hrid2 : rid ∉ rest.map Prod.fst := fun hh =>
      hrid (List.mem_cons_of_mem _ hh)
    obtain ⟨data2, happ, hlook, hacc⟩ :=
      ih (applyRoomAccountData data k evs) rid
        (fun e he => hall e (List.mem_cons_of_mem _ he)) hrid2
    refine ⟨data2, ?_, ?_, ?_⟩
    · simp only [applyAccountDataEntries, hfetch]
      exact happ
    · rw [hlook]
      exact applyRoomAccountData_lookup_ne data k evs rid (fun hh => hrk hh.symm)
    · intro hre
      rw [hacc hre]
      have hk : k ≠ "" := by
        intro hh
        exact hrk (by rw [hre, hh])
      exact applyRoomAccountData_global_preserved data k evs hk

theorem applyAccountDataEntries_mem (env : SyncEnv)
    (localpart roomID : String) (types : List String)
    (events : List ClientEvent) :
    ∀ (entries : List (String × List String)) (data : Response),
    (∀ e ∈ entries, ∃ evs,
       fetchAccountDataByTypes env localpart e.1 e.2 = Except.ok evs) →
    (entries.map Prod.fst).Nodup →
    (roomID, types) ∈ entries →
    fetchAccountDataByTypes env localpart roomID types = Except.ok events →
    ∃ data2, applyAccountDataEntries env localpart data entries = Except.ok data2 ∧
      (roomID = "" → data2.accountDataEvents = events) ∧
      (roomID ≠ "" → alLookup data2.joined roomID =
         some { (alLookup data.joined roomID).getD emptyJoinedRoom with
                accountDataEvents := events }) := by
  intro entries
  induction entries with
  | nil =>
    intro data _ _ hmem _
    exact absurd hmem (List.not_mem_nil _)
  | cons kv rest ih =>
    intro data hall hnodup hmem hfetch
    obtain ⟨k, tys⟩ := kv
    rcases List.mem_cons.mp hmem with heq | hmem2
    · obtain ⟨hk, hty⟩ := Prod.mk.injEq roomID types k tys ▸ heq
      subst hk
      subst hty
      have hnotin : roomID ∉ rest.map Prod.fst := by
        simpa using (List.nodup_cons.mp hnodup).1
      obtain ⟨data2, happ, hlook, hacc⟩ :=
        applyAccountDataEntries_preserve env localpart rest
          (applyRoomAccountData data roomID events) roomID
          (fun e he => hall e (List.mem_cons_of_mem _ he)) hnotin
      refine ⟨data2, ?_, ?_, ?_⟩
      · simp only [applyAccountDataEntries, hfetch]
        exact happ
      · intro hre
        rw [hacc hre, hre]
        exact applyRoomAccountData_global_self _ _
      · intro hre
        rw [hlook]
        exact applyRoomAccountData_lookup_self data roomID events hre
    · have hkfst : roomID ∈ rest.map Prod.fst :=
        List.mem_map_of_mem Prod.fst hmem2
      have hkne : k ≠ roomID := by
        intro hh
        exact (List.nodup_cons.mp hnodup).1 (hh ▸ hkfst)
      obtain ⟨evs0, hfetch0⟩ := hall (k, tys) (List.mem_cons_self _ _)
      obtain ⟨data2, happ, hglob, hlook⟩ :=
        ih (applyRoomAccountData data k evs0)
          (fun e he => hall e (List.mem_cons_of_mem _ he))
          (List.nodup_cons.mp hnodup).2 hmem2 hfetch
      refine ⟨data2, ?_, hglob, ?_⟩
      · simp only [applyAccountDataEntries, hfetch0]
        exact happ
      · intro hre
        rw [hlook hre]
        rw [applyRoomAccountData_lookup_ne data k evs0 roomID hkne]

theorem fetchAccountDataByTypes_eq (env : SyncEnv)
    (localpart roomID : String) (types : List String)
    (vals : String → List ClientEvent)
    (hvals : ∀ t ∈ types, env.getAccountDataByType localpart roomID t =
       Except.ok (vals t)) :
    fetchAccountDataByTypes env localpart roomID types =
      Except.ok ((types.map vals).flatten) := by
  induction types with
  | nil => rfl
  | cons t ts ih =>
    simp only [fetchAccountDataByTypes, hvals t (List.mem_cons_self t ts),
      ih (fun t2 h2 => hvals t2 (List.mem_cons_of_mem t h2)),
      List.map_cons, List.flatten_cons]

theorem appendAccountData_incremental (env : SyncEnv) (data : Response)
    (req : SyncRequest) (currentPos : Nat) (localpart dom : String)
    (dts : List (String × List String))
    (hs : req.since ≠ 0)
    (hsplit : SplitID '@' req.userID = Except.ok (localpart, dom))
    (hrange : env.getAccountDataInRange req.userID req.since currentPos =
       Except.ok dts)
    (hne : dts.isEmpty = false) :
    appendAccountData env data req.userID req currentPos =
      applyAccountDataEntries env localpart data dts := by
  simp [appendAccountData, hsplit, hs, hrange, hne]

/-- Claim C9: on an incremental sync the account-data merge fetches the
types changed in `(since, currentPos]` and attaches, per changed type, that
type's current value (the concatenation of the current-value query results),
independent of any history — so a type that changed several times yields
only its latest value, and a previously delivered value is re-delivered
whenever its type is reported changed again. -/
theorem appendAccountData_current_values (env : SyncEnv) (data : Response)
    (req : SyncRequest) (currentPos : Nat) (localpart dom roomID : String)
    (dts : List (String × List String)) (types : List String)
    (vals : String → List ClientEvent)
    (hs : req.since ≠ 0)
    (hsplit : SplitID '@' req.userID = Except.ok (localpart, dom))
    (hrange : env.getAccountDataInRange req.userID req.since currentPos =
       Except.ok dts)
    (hnodup : (dts.map Prod.fst).Nodup)
    (hmem : (roomID, types) ∈ dts)
    (hall : ∀ e ∈ dts, ∃ evs,
       fetchAccountDataByTypes env localpart e.1 e.2 = Except.ok evs)
    (hvals : ∀ t ∈ types, env.getAccountDataByType localpart roomID t =
       Except.ok (vals t)) :
    ∃ data2, appendAccountData env data req.userID req currentPos =
        Except.ok data2 ∧
      (roomID = "" → data2.accountDataEvents = (types.map vals).flatten) ∧
      (roomID ≠ "" → ∃ jr, alLookup data2.joined roomID = some jr ∧
         jr.accountDataEvents = (types.map vals).flatten) := by
  have hfetch := fetchAccountDataByTypes_eq env localpart roomID types vals hvals
  obtain ⟨data2, happ, hglob, hlook⟩ :=
    applyAccountDataEntries_mem env localpart roomID types
      ((types.map vals).flatten) dts data hall hnodup hmem hfetch
  have hne : dts.isEmpty = false := by
    cases dts with
    | nil => exact absurd hmem (List.not_mem_nil _)
    | cons a b => rfl
  refine ⟨data2, ?_, hglob, ?_⟩
  · rw [appendAccountData_incremental env data req currentPos localpart dom dts
      hs hsplit hrange hne]
    exact happ
  · intro hre
    rw [hlook hre]
    exact ⟨_, rfl, rfl⟩

/-- Witness for C9: a changed type `m.tag` in room `!r:hs1` ends up in the
response with exactly the current value of that type. -/
theorem appendAccountData_current_values_witness :
    reqPoll.since ≠ 0 ∧
    (∃ data2, appendAccountData syncEnvB (NewResponse 9) reqPoll.userID
        reqPoll 9 = Except.ok data2 ∧
      ∃ jr, alLookup data2.joined "!r:hs1" = some jr ∧
        jr.accountDataEvents =
          ((["m.tag"].map (fun _ => [ClientEvent.mk "tagdata"])).flatten)) := by
  refine ⟨by decide, ?_⟩
  obtain ⟨data2, happ, _, hlook⟩ :=
    appendAccountData_current_values syncEnvB (NewResponse 9) reqPoll 9
      "alice" "hs1" "!r:hs1" [("!r:hs1", ["m.tag"])] ["m.tag"]
      (fun _ => [ClientEvent.mk "tagdata"])
      (by decide) (by decide) rfl (by decide) (by decide)
      (by
        intro e he
        rw [List.mem_singleton] at he
        subst he
        exact ⟨[ClientEvent.mk "tagdata"], rfl⟩)
      (by
        intro t ht
        rw [List.mem_singleton] at ht
        subst ht
        rfl)
  obtain ⟨jr, hjr, hacc⟩ := hlook (by decide)
  exact ⟨data2, happ, jr, hjr, hacc⟩

/-- Claim C10: for a changed account-data type reported for a room id, if the
room is absent from the response's joined map, a brand-new entry is created
holding only the account data events (empty timeline and state); if present,
the entry's account data events are overwritten by the freshly fetched set
(not appended to), other fields untouched. -/
theorem appendAccountData_room_entry (env : SyncEnv) (data : Response)
    (req : SyncRequest) (currentPos : Nat) (localpart dom roomID : String)
    (dts : List (String × List String)) (types : List String)
    (events : List ClientEvent)
    (hs : req.since ≠ 0)
    (hsplit : SplitID '@' req.userID = Except.ok (localpart, dom))
    (hrange : env.getAccountDataInRange req.userID req.since currentPos =
       Except.ok dts)
    (hnodup : (dts.map Prod.fst).Nodup)
    (hmem : (roomID, types) ∈ dts)
    (hall : ∀ e ∈ dts, ∃ evs,
       fetchAccountDataByTypes env localpart e.1 e.2 = Except.ok evs)
    (hfetch : fetchAccountDataByTypes env localpart roomID types =
       Except.ok events)
    (hroom : roomID ≠ "") :
    ∃ data2, appendAccountData env data req.userID req currentPos =
        Except.ok data2 ∧
      (alLookup data.joined roomID = none →
        alLookup data2.joined roomID =
          some { timelineEvents := [], stateEvents := [],
                 accountDataEvents := events }) ∧
      (∀ jr0, alLookup data.joined roomID = some jr0 →
        alLookup data2.joined roomID =
          some { jr0 with accountDataEvents := events }) := by
  obtain ⟨data2, happ, _, hlook⟩ :=
    applyAccountDataEntries_mem env localpart roomID types events dts data
      hall hnodup hmem hfetch
  have hne : dts.isEmpty = false := by
    cases dts with
    | nil => exact absurd hmem (List.not_mem_nil _)
    | cons a b => rfl
  refine ⟨data2, ?_, ?_, ?_⟩
  · rw [appendAccountData_incremental env data req currentPos localpart dom dts
      hs hsplit hrange hne]
    exact happ
  · intro hnone
    rw [hlook hroom, hnone]
    rfl
  · intro jr0 hsome
    rw [hlook hroom, hsome]
    rfl

/-- Witness for C10: the room `!r:hs1` is absent from the joined map of the
empty response, and the merge creates a fresh entry holding only the fetched
account data. -/
theorem appendAccountData_room_entry_witness :
    alLookup (NewResponse 9).joined "!r:hs1" = none ∧
    ∃ data2, appendAccountData syncEnvB (NewResponse 9) reqPoll.userID
        reqPoll 9 = Except.ok data2 ∧
      alLookup data2.joined "!r:hs1" =
        some { timelineEvents := [], stateEvents := [],
               accountDataEvents := [ClientEvent.mk "tagdata"] } := by
  refine ⟨rfl, ?_⟩
  obtain ⟨data2, happ, habsent, _⟩ :=
    appendAccountData_room_entry syncEnvB (NewResponse 9) reqPoll 9
      "alice" "hs1" "!r:hs1" [("!r:hs1", ["m.tag"])] ["m.tag"]
      [ClientEvent.mk "tagdata"]
      (by decide) (by decide) rfl (by decide) (by decide)
      (by
        intro e he
        rw [List.mem_singleton] at he
        subst he
        exact ⟨[ClientEvent.mk "tagdata"], rfl⟩)
      rfl (by decide)
  exact ⟨data2, happ, habsent rfl⟩

end Dendrite
